import Mathlib

/-!
Verification development for the dataset automation / webhook dispatch engine.

The definitions below are a shallow embedding of the TypeScript sources:

* packages/shared/src/domain/datasets.ts — the dataset domain schema, the
  WebhookActionHandler (parseHeaders, validateFormData, buildActionConfig);
* web/src/features/datasets/server/datasetChangeEventSourcing.ts — the change
  publisher;
* the dataset change event processor (datasetVersionProcessor and
  enqueueAutomationAction) and the dataset filter column definitions
  (datasetsTableCols, datasetActionFilterOptions).

Conventions of the embedding:

* UUID generation (v4) is modelled as drawing from a monotone counter held in
  the processing state; identifiers produced by v4 are natural numbers.
* Wall-clock timestamps (new Date) are modelled as draws from a second counter.
* Asynchronous calls to the database and to the queues are modelled by an
  environment record that fixes the outcome (success value or thrown error) of
  each external call; thrown JavaScript errors are modelled as String errors.
* Persisted writes and queue insertions are recorded in an append-only effect
  trace; log statements are recorded in a separate log list.
-/

/-- JSON values, used for the nullable structured fields of a dataset
(metadata, inputSchema, expectedOutputSchema, remoteExperimentPayload) and for
rendering the object shapes that the code builds. -/
inductive Json where
  | null
  | bool (b : Bool)
  | num (n : Int)
  | str (s : String)
  | arr (xs : List Json)
  | obj (fields : List (String × Json))

/-- Key lookup in a JSON object; returns none on non-objects and absent keys. -/
def Json.lookupKey (k : String) : Json → Option Json
  | .obj fields => fields.lookup k
  | _ => none

/-- The list of keys of a JSON object (empty for non-objects). -/
def Json.keys : Json → List String
  | .obj fields => fields.map Prod.fst
  | _ => []

/-- Embedding of the zod schema jsonSchemaNullable from
packages/shared/src/utils/zod: parse validates that a value is JSON or null.
On the well-typed JSON values of the embedding the validation always succeeds
and returns its input. -/
def jsonSchemaNullableParse (v : Option Json) : Option Json := v

/-! ### Decimal rendering of natural numbers

The TypeScript sources interpolate numbers into strings (template literals such
as the validation messages using index + 1).  JavaScript renders numbers in
decimal; we embed that rendering and prove it injective and digit-only, which
is what the violation-counting theorems need to tell messages for different
header indices apart. -/

/-- The character for a single decimal digit. -/
def digitChar (d : Nat) : Char := Char.ofNat (48 + d)

/-- Numeric value of a digit character. -/
def digitVal (c : Char) : Nat := c.toNat - 48

/-- Little-endian digit characters, structurally recursive on a fuel bound so
that concrete inputs evaluate inside the kernel; with fuel at least n this
computes the decimal digits of n, empty for zero. -/
def natDigitsLEFuel : Nat → Nat → List Char
  | 0, _ => []
  | _ + 1, 0 => []
  | fuel + 1, n + 1 => digitChar ((n + 1) % 10) :: natDigitsLEFuel fuel ((n + 1) / 10)

/-- Little-endian digit characters of a natural number; empty for zero. -/
def natDigitsLE (n : Nat) : List Char := natDigitsLEFuel n n

/-- Value of a little-endian digit-character list. -/
def valLE : List Char → Nat
  | [] => 0
  | c :: t => digitVal c + 10 * valLE t

/-- Decimal rendering of a natural number, as produced by JavaScript string
interpolation. -/
def natToString (n : Nat) : String :=
  if n = 0 then "0" else String.mk (natDigitsLE n).reverse

/-- The trim operation used by the form code (String.prototype.jsTrim): strip
leading and trailing whitespace.  Implemented by structural recursion over
the character list so that concrete witness inputs evaluate inside the
kernel. -/
def String.jsTrim (s : String) : String :=
  String.mk (((s.data.dropWhile Char.isWhitespace).reverse.dropWhile
    Char.isWhitespace).reverse)

/-- The toLowerCase operation used by the form code, implemented by a
structural map over the character list so that concrete witness inputs
evaluate inside the kernel. -/
def String.jsLower (s : String) : String :=
  String.mk (s.data.map Char.toLower)

/-! ### Webhook action form model

Embedding of the WebhookActionHandler in
packages/shared/src/domain/datasets.ts: the HeaderPair rows edited in the
form, parseHeaders (the read-path representation of stored headers) and
validateFormData (the synchronous configuration validator). -/

/-- A header row of the webhook form (type HeaderPair in the source). -/
structure HeaderPair where
  name : String
  value : String
  displayValue : String
  isSecret : Bool
  wasSecret : Bool
  deriving DecidableEq

/-- A stored header entry of an action configuration: the persisted display
value together with its secret flag (the entries of displayHeaders). -/
structure StoredHeaderValue where
  value : String
  secret : Bool
  deriving DecidableEq

/-- The fields of an action record that parseHeaders inspects: the action type
discriminator and the optional displayHeaders map of the webhook
configuration (none models an absent or null field). -/
structure ActionDomain where
  type : String
  displayHeaders : Option (List (String × StoredHeaderValue))
  deriving DecidableEq

/-- The fields of an automation record that parseHeaders inspects. -/
structure AutomationDomain where
  action : Option ActionDomain
  deriving DecidableEq

/-- Embedding of WebhookActionHandler.parseHeaders: builds the form's header
rows from a stored automation.  For each stored entry the form value is the
stored value for public headers and the empty string for secret headers; the
display value and both secret flags mirror the stored entry. -/
def parseHeaders (automation : Option AutomationDomain) : List HeaderPair :=
  match automation with
  | some au =>
    match au.action with
    | some act =>
      if act.type = "WEBHOOK" then
        match act.displayHeaders with
        | some dh =>
          dh.map (fun p =>
            { name := p.1
              value := if p.2.secret then "" else p.2.value
              displayValue := p.2.value
              isSecret := p.2.secret
              wasSecret := p.2.secret })
        | none => []
      else []
    | none => []
  | none => []

/-- The submitted webhook form data that validateFormData inspects: the URL
and the list of header rows. -/
structure WebhookFormData where
  url : String
  headers : List HeaderPair
  deriving DecidableEq

/-- Modelled from the spec: WebhookDefaultHeaders (imported from the shared
package, not under src/) is the map of headers the system itself injects into
outbound webhook requests; validation compares lower-cased submitted names
against its keys, and scenario D of the spec names an Authorization header as
colliding case-insensitively with a system default header. -/
def webhookDefaultHeaderKeys : List String := ["authorization"]

/-- Shared shape of the per-header validation messages: the source prefixes
each with the 1-based header index via string interpolation. -/
def headerMsg (k : Nat) (rest : String) : String :=
  "Header " ++ natToString (k + 1) ++ ": " ++ rest

/-- Message pushed when an in-use header has an empty name. -/
def nameEmptyMsg (k : Nat) : String := headerMsg k "Name cannot be empty"

/-- Message pushed when a non-secret in-use header has an empty value. -/
def valueEmptyMsg (k : Nat) : String := headerMsg k "Value cannot be empty"

/-- Message pushed when a header changes its secret flag without a fresh
value. -/
def transitionMsg (k : Nat) (wasSecret : Bool) : String :=
  headerMsg k ("A value must be provided when making a header "
    ++ (if wasSecret then "public" else "secret"))

/-- Message pushed when a header name collides with a system default header. -/
def collisionMsg (k : Nat) (name : String) : String :=
  headerMsg k ("\"" ++ name ++ "\" is automatically added by Langfuse and cannot be customized")

/-- Message pushed when the webhook URL is missing. -/
def urlRequiredMsg : String := "Webhook URL is required"

/-- Message pushed when two in-use header names coincide case-insensitively. -/
def duplicateMsg : String := "Duplicate header names are not allowed (case-insensitive)"

/-- The validation messages contributed by the header at (0-based) index k:
the body of the forEach loop of validateFormData.  Fully empty rows are
skipped; the four checks push their messages in source order. -/
def headerViolations (k : Nat) (h : HeaderPair) : List String :=
  if h.name.jsTrim ≠ "" ∨ h.value.jsTrim ≠ "" then
    (if h.name.jsTrim = "" then [nameEmptyMsg k] else []) ++
    (if h.value.jsTrim = "" ∧ h.isSecret = false then [valueEmptyMsg k] else []) ++
    (if h.wasSecret ≠ h.isSecret ∧ h.value.jsTrim = "" then [transitionMsg k h.wasSecret] else []) ++
    (if h.name.jsTrim ≠ "" ∧ webhookDefaultHeaderKeys.contains h.name.jsTrim.jsLower
      then [collisionMsg k h.name] else [])
  else []

/-- The forEach loop of validateFormData over the header rows, carrying the
running index. -/
def violationsFrom (k : Nat) : List HeaderPair → List String
  | [] => []
  | h :: t => headerViolations k h ++ violationsFrom (k + 1) t

/-- The lower-cased trimmed names of the in-use header rows, as collected by
the duplicate check of validateFormData. -/
def headerNamesOf (headers : List HeaderPair) : List String :=
  (headers.filter (fun h => h.name.jsTrim != "")).map (fun h => h.name.jsTrim.jsLower)

/-- The full error list collected by validateFormData, in push order: the URL
check, then the per-header checks, then the single duplicate-names check
(the JavaScript Set comparison is the comparison of the deduplicated length
with the full length). -/
def validationErrors (fd : WebhookFormData) : List String :=
  (if fd.url = "" then [urlRequiredMsg] else []) ++
  violationsFrom 0 fd.headers ++
  (if (headerNamesOf fd.headers).dedup.length < (headerNamesOf fd.headers).length
    then [duplicateMsg] else [])

/-- The result record returned by validateFormData. -/
structure ValidationResult where
  isValid : Bool
  errors : Option (List String)
  deriving DecidableEq

/-- Embedding of WebhookActionHandler.validateFormData. -/
def validateFormData (fd : WebhookFormData) : ValidationResult :=
  let errors := validationErrors fd
  { isValid := errors.length == 0
    errors := if errors.length > 0 then some errors else none }

/-! ### Filter columns and the in-memory filter evaluator

ColumnDefinition, datasetsTableCols and datasetActionFilterOptions are
embedded from the dataset filter column source file; the filter evaluator
itself lives in the shared server package and is modelled from the spec. -/

/-- A filter column definition (ColumnDefinition in the source). -/
structure ColumnDefinition where
  id : String
  name : String
  type : String
  internal : String
  deriving DecidableEq

/-- Embedding of datasetsTableCols: the single column definitions list for
dataset filtering in automations. -/
def datasetsTableCols : List ColumnDefinition :=
  [{ id := "name", name := "Name", type := "string", internal := "d.\"name\"" }]

/-- Embedding of datasetActionFilterOptions: the advertised filter columns,
the table columns with id equal to "name". -/
def datasetActionFilterOptions : List ColumnDefinition :=
  datasetsTableCols.filter (fun col => col.id == "name")

/-- Modelled from the spec: the comparison operators of a filter condition
(spec section 4.1 requires at least equality, inequality and case-sensitive
substring containment); the shared filter types are not under src/. -/
inductive FilterOp where
  | eq | ne | contains
  deriving DecidableEq

/-- Modelled from the spec: one condition of a trigger's filter predicate
(spec section 3): a logical column name, an operator and a comparison value;
the shared filter types are not under src/. -/
structure FilterCondition where
  column : String
  op : FilterOp
  value : String
  deriving DecidableEq

/-- Whether the first character list is an initial segment of the second. -/
def startsWithChars : List Char → List Char → Bool
  | [], _ => true
  | _ :: _, [] => false
  | a :: as, b :: bs => a == b && startsWithChars as bs

/-- Whether the first character list occurs contiguously in the second. -/
def hasSubChars (needle : List Char) : List Char → Bool
  | [] => needle.isEmpty
  | c :: rest => startsWithChars needle (c :: rest) || hasSubChars needle rest

/-- Case-sensitive substring test on strings. -/
def strContainsStr (hay needle : String) : Bool := hasSubChars needle.data hay.data

/-- Modelled from the spec: one condition evaluated by
InMemoryFilterService.evaluateFilter (spec section 4.1; the service lives in
the shared server package, not under src/): the column is resolved through
the field mapper, and a column the mapper does not recognize makes the
condition false rather than raising. -/
def evalCondition {α : Type} (mapper : α → String → Option String) (data : α)
    (cond : FilterCondition) : Bool :=
  match mapper data cond.column with
  | none => false
  | some v =>
    match cond.op with
    | .eq => v == cond.value
    | .ne => v != cond.value
    | .contains => strContainsStr v cond.value

/-- Modelled from the spec: InMemoryFilterService.evaluateFilter (spec
section 4.1, not under src/): all conditions must hold conjunctively and the
empty condition list matches every event. -/
def evaluateFilter {α : Type} (data : α) (filt : List FilterCondition)
    (mapper : α → String → Option String) : Bool :=
  filt.all (fun cond => evalCondition mapper data cond)

/-! ### Dataset pipeline data model -/

/-- The dataset domain object (DatasetDomainSchema in
packages/shared/src/domain/datasets.ts); dates are modelled as naturals. -/
structure DatasetDomain where
  id : String
  name : String
  projectId : String
  description : Option String
  metadata : Option Json
  remoteExperimentUrl : Option String
  remoteExperimentPayload : Option Json
  inputSchema : Option Json
  expectedOutputSchema : Option Json
  itemsUpdatedAt : Option Nat
  createdAt : Nat
  updatedAt : Nat

/-- The dataset variant of EntityChangeEventType consumed by
datasetVersionProcessor. -/
structure DatasetChangeEvent where
  projectId : String
  datasetId : String
  action : String
  dataset : DatasetDomain

/-- The combined evaluation object the processor builds for each trigger: the
spread dataset snapshot together with the action kind. -/
structure EventData where
  dataset : DatasetDomain
  action : String

/-- The field mapper installed by datasetVersionProcessor: the column string
"action" resolves to the event's action and the column string "Name" to the
spread dataset's name field; every other column is unrecognized. -/
def fieldMapper (data : EventData) (column : String) : Option String :=
  if column = "action" then some data.action
  else if column = "Name" then some data.dataset.name
  else none

/-- A trigger configuration as returned by getTriggerConfigurations,
restricted to the fields the processor reads. -/
structure Trigger where
  id : String
  projectId : String
  filter : List FilterCondition
  actionIds : List String
  deriving DecidableEq

/-- The shared ActionExecutionStatus enum; the processor only ever writes
PENDING, the dispatcher later moves an execution to a terminal status. -/
inductive ActionExecutionStatus where
  | PENDING | SUCCESS | ERROR
  deriving DecidableEq

/-- An action record as returned by getActionById; the processor only tests
its presence. -/
structure ActionRecord where
  id : String
  deriving DecidableEq

/-- An automation record as returned by getAutomations; the processor reads
its id. -/
structure Automation where
  id : String
  deriving DecidableEq

/-- The audit input payload captured on an execution record. -/
structure ExecutionInput where
  datasetName : String
  datasetId : String
  automationId : String
  type : String
  deriving DecidableEq

/-- An automation execution row as written by
prisma.automationExecution.create in enqueueAutomationAction. -/
structure ExecutionRecord where
  id : Nat
  projectId : String
  automationId : String
  triggerId : String
  actionId : String
  status : ActionExecutionStatus
  sourceId : String
  input : ExecutionInput
  deriving DecidableEq

/-- The innermost payload of a webhook delivery job as built by
enqueueAutomationAction: the action kind, the entity-type discriminator and
the normalized dataset snapshot. -/
structure WebhookInnerPayload where
  action : String
  type : String
  dataset : DatasetDomain

/-- The payload of a webhook delivery job. -/
structure WebhookJobPayload where
  projectId : String
  automationId : String
  executionId : Nat
  payload : WebhookInnerPayload

/-- A webhook delivery job as passed to WebhookQueue.add. -/
structure WebhookJob where
  timestamp : Nat
  id : Nat
  payload : WebhookJobPayload
  name : String

/-- The shared constant QueueJobs.WebhookJob, modelled by its identifier. -/
def webhookJobName : String := "WebhookJob"

/-- The payload of an entity change job built by the publisher. -/
structure EntityChangePayload where
  entityType : String
  projectId : String
  datasetId : String
  action : String
  dataset : DatasetDomain

/-- An entity change job as passed to EntityChangeQueue.add. -/
structure EntityChangeJob where
  timestamp : Nat
  id : Nat
  name : String
  payload : EntityChangePayload

/-- The shared constant QueueJobs.EntityChangeJob, modelled by its
identifier. -/
def entityChangeJobName : String := "EntityChangeJob"

/-! ### Effects, state and environment -/

/-- One externally visible persisted effect: a database write of an execution
record or an insertion into one of the two queues. -/
inductive Effect where
  | createExecution (r : ExecutionRecord)
  | enqueueWebhook (j : WebhookJob)
  | enqueueEntityChange (e : EntityChangeJob)

/-- Severity of a logger call. -/
inductive LogLevel where
  | info | debug | error
  deriving DecidableEq

/-- One logger call: its severity and its message. -/
structure LogEntry where
  level : LogLevel
  message : String
  deriving DecidableEq

/-- The processing state threaded through a run: the fresh-identifier supply
modelling v4, the clock supply modelling new Date, the append-only effect
trace and the log list. -/
structure PState where
  uuidCounter : Nat
  clock : Nat
  trace : List Effect
  logs : List LogEntry

/-- Outcome of a fallible computation: the returned value or the thrown error
message, together with the state reached (effects performed before a throw
remain performed). -/
inductive Res (α : Type) where
  | ok (value : α) (s : PState)
  | err (e : String) (s : PState)

/-- The state reached by a computation, whether it returned or threw. -/
def Res.state {α : Type} : Res α → PState
  | .ok _ s => s
  | .err _ s => s

/-- Append an info log entry. -/
def logInfo (m : String) (s : PState) : PState :=
  { s with logs := s.logs ++ [⟨.info, m⟩] }

/-- Append a debug log entry. -/
def logDebug (m : String) (s : PState) : PState :=
  { s with logs := s.logs ++ [⟨.debug, m⟩] }

/-- Append an error log entry. -/
def logError (m : String) (s : PState) : PState :=
  { s with logs := s.logs ++ [⟨.error, m⟩] }

/-- Record a persisted effect. -/
def pushEffect (e : Effect) (s : PState) : PState :=
  { s with trace := s.trace ++ [e] }

/-- Draw a fresh identifier (the model of v4). -/
def freshUuid (s : PState) : Nat × PState :=
  (s.uuidCounter, { s with uuidCounter := s.uuidCounter + 1 })

/-- Read the clock (the model of new Date). -/
def nowClock (s : PState) : Nat × PState :=
  (s.clock, { s with clock := s.clock + 1 })

/-- The environment fixes the outcome of every external call a run performs:
the batch trigger lookup, the per-action record and automation lookups, the
execution-record insert, the dataset-version listing, and the two queue
singletons (whether getInstance returns an instance, and what its add call
does).  An Except.error models the call throwing. -/
structure Env where
  triggersResult : Except String (List Trigger)
  actionById : String → String → Except String (Option ActionRecord)
  automationsFor : String → String → Except String (List Automation)
  createExecResult : ExecutionRecord → Except String Unit
  webhookQueueAvailable : Bool
  webhookAddResult : WebhookJob → Except String Unit
  listVersionsResult : Except String (List Nat)
  entityQueueAvailable : Bool
  entityAddResult : EntityChangeJob → Except String Unit

/-! ### Log messages of the processor and the publisher -/

/-- Info log at the start of processing an event. -/
def processingMsg (event : DatasetChangeEvent) : String :=
  "Processing dataset change event for dataset " ++ event.datasetId
    ++ " for project " ++ event.projectId

/-- Debug log after the batch trigger lookup. -/
def foundTriggersMsg (n : Nat) : String :=
  "Found " ++ natToString n ++ " active dataset triggers"

/-- Debug log for a trigger whose filter does not match. -/
def noMatchMsg (t : Trigger) : String :=
  "Event doesn't match trigger " ++ t.id ++ " filters"

/-- Debug log for a matching trigger. -/
def matchesMsg (t : Trigger) : String :=
  "Trigger " ++ t.id ++ " matches, executing actions"

/-- Debug log and thrown error for a trigger without exactly one action. -/
def badActionCountMsg (t : Trigger) : String :=
  "Trigger " ++ t.id ++ " for project " ++ t.projectId
    ++ " has multiple or no actions. This is not expected"

/-- Error log for a stale action id. -/
def actionNotFoundMsg (actionId : String) : String :=
  "Action " ++ actionId ++ " not found"

/-- Thrown error when an action is not backed by exactly one automation. -/
def expectedOneAutomationMsg (actionId : String) (n : Nat) : String :=
  "Expected 1 automation for action " ++ actionId ++ ", got " ++ natToString n

/-- Debug log after creating an execution record. -/
def createdExecutionMsg (executionId : Nat) (projectId actionId : String) : String :=
  "Created automation execution " ++ natToString executionId
    ++ " for project " ++ projectId ++ " and action " ++ actionId

/-- Error log of the per-trigger catch block; the caught error is appended in
its string rendering. -/
def triggerErrorMsg (t : Trigger) (event : DatasetChangeEvent) (e : String) : String :=
  "Error processing trigger " ++ t.id ++ " for dataset " ++ event.datasetId
    ++ " for project " ++ event.projectId ++ ": " ++ e

/-- Error log of the outer catch block of the processor. -/
def processorFailedMsg (event : DatasetChangeEvent) (e : String) : String :=
  "Failed to process dataset change event for dataset " ++ event.datasetId
    ++ " for project " ++ event.projectId ++ ": " ++ e

/-- Info log of the publisher after a successful enqueue. -/
def queuedEntityMsg (d : DatasetDomain) (action : String) : String :=
  "Queued entity change event for dataset " ++ d.id ++ " in project "
    ++ d.projectId ++ " with action " ++ action

/-- Error log of the publisher's catch block. -/
def publishFailedMsg (d : DatasetDomain) (e : String) : String :=
  "Failed to queue entity change event for dataset " ++ d.id
    ++ " for project " ++ d.projectId ++ ": " ++ e

/-! ### The change event processor -/

/-- The execution record literal passed to prisma.automationExecution.create
in enqueueAutomationAction. -/
def mkExecutionRecord (datasetData : DatasetDomain)
    (automationId triggerId actionId projectId : String) (executionId : Nat) :
    ExecutionRecord :=
  { id := executionId, projectId := projectId, automationId := automationId,
    triggerId := triggerId, actionId := actionId,
    status := .PENDING, sourceId := datasetData.id,
    input := { datasetName := datasetData.name, datasetId := datasetData.id,
               automationId := automationId, type := "dataset" } }

/-- The webhook job literal passed to WebhookQueue.add in
enqueueAutomationAction: the normalized dataset snapshot nested under the
action kind and the entity-type discriminator. -/
def mkWebhookJob (datasetData : DatasetDomain) (action : String)
    (automationId projectId : String) (executionId ts jobId : Nat) : WebhookJob :=
  { timestamp := ts, id := jobId,
    payload := { projectId := projectId, automationId := automationId,
                 executionId := executionId,
                 payload := { action := action, type := "dataset",
                              dataset := { datasetData with
                                metadata := jsonSchemaNullableParse datasetData.metadata,
                                inputSchema := jsonSchemaNullableParse datasetData.inputSchema,
                                expectedOutputSchema :=
                                  jsonSchemaNullableParse datasetData.expectedOutputSchema } } },
    name := webhookJobName }

/-- Embedding of enqueueAutomationAction: look up the automations backing the
action (throwing unless there is exactly one), draw a fresh execution id,
persist the PENDING execution record, log, and, when the webhook queue
singleton is available, build and enqueue the webhook delivery job.  The
optional-chaining call on the queue singleton skips the whole add call,
including the construction of the job object, when no instance exists. -/
def enqueueAutomationAction (env : Env) (datasetData : DatasetDomain) (action : String)
    (triggerId actionId projectId : String) (s : PState) : Res Unit :=
  match env.automationsFor projectId actionId with
  | .error e => .err e s
  | .ok automations =>
    match automations with
    | [automation] =>
      let (executionId, s1) := freshUuid s
      let record := mkExecutionRecord datasetData automation.id triggerId actionId
        projectId executionId
      match env.createExecResult record with
      | .error e => .err e s1
      | .ok _ =>
        let s2 := logDebug (createdExecutionMsg executionId projectId actionId)
          (pushEffect (.createExecution record) s1)
        if env.webhookQueueAvailable then
          let (ts, s3) := nowClock s2
          let (jobId, s4) := freshUuid s3
          let job := mkWebhookJob datasetData action automation.id projectId
            executionId ts jobId
          match env.webhookAddResult job with
          | .error e => .err e s4
          | .ok _ => .ok () (pushEffect (.enqueueWebhook job) s4)
        else .ok () s2
    | _ => .err (expectedOneAutomationMsg actionId automations.length) s

/-- The Promise.all body over the matched trigger's action ids (the guard in
tryProcessTrigger ensures the list is a singleton, so the concurrent map is
modelled sequentially): resolve each action record, skip it with an error log
when it no longer exists, otherwise dispatch through
enqueueAutomationAction. -/
def dispatchActions (env : Env) (event : DatasetChangeEvent) (t : Trigger) :
    List String → PState → Res Unit
  | [], s => .ok () s
  | actionId :: rest, s =>
    match env.actionById event.projectId actionId with
    | .error e => .err e s
    | .ok none => dispatchActions env event t rest (logError (actionNotFoundMsg actionId) s)
    | .ok (some _) =>
      match enqueueAutomationAction env event.dataset event.action t.id actionId
          event.projectId s with
      | .ok _ s1 => dispatchActions env event t rest s1
      | .err e s1 => .err e s1

/-- The body of the per-trigger try block of datasetVersionProcessor: build
the evaluation object, evaluate the filter, skip non-matches, reject triggers
without exactly one action id, and dispatch the actions. -/
def tryProcessTrigger (env : Env) (event : DatasetChangeEvent) (t : Trigger)
    (s : PState) : Res Unit :=
  let eventData : EventData := { dataset := event.dataset, action := event.action }
  if evaluateFilter eventData t.filter fieldMapper then
    let s1 := logDebug (matchesMsg t) s
    if t.actionIds.length != 1 then
      .err (badActionCountMsg t) (logDebug (badActionCountMsg t) s1)
    else
      dispatchActions env event t t.actionIds s1
  else
    .ok () (logDebug (noMatchMsg t) s)

/-- One iteration of the trigger loop: the try body together with its catch
block, which logs the error and lets the loop continue. -/
def processOneTrigger (env : Env) (event : DatasetChangeEvent) (t : Trigger)
    (s : PState) : PState :=
  match tryProcessTrigger env event t s with
  | .ok _ s1 => s1
  | .err e s1 => logError (triggerErrorMsg t event e) s1

/-- The trigger loop of datasetVersionProcessor. -/
def processTriggers (env : Env) (event : DatasetChangeEvent) :
    List Trigger → PState → PState
  | [], s => s
  | t :: rest, s => processTriggers env event rest (processOneTrigger env event t s)

/-- Embedding of datasetVersionProcessor: log, load the active dataset
triggers, and process each trigger; a failure of the batch lookup is caught
by the outer catch block, which logs it and re-throws it. -/
def datasetVersionProcessor (env : Env) (event : DatasetChangeEvent)
    (s : PState) : Res Unit :=
  let s1 := logInfo (processingMsg event) s
  match env.triggersResult with
  | .error e => .err e (logError (processorFailedMsg event e) s1)
  | .ok triggers =>
    let s2 := logDebug (foundTriggersMsg triggers.length) s1
    .ok () (processTriggers env event triggers s2)

/-! ### The change publisher -/

/-- The entity change event literal built by the publisher, with the
version-derived items timestamp overriding the stored one and the nullable
structured fields normalized. -/
def mkEntityChangeJob (d : DatasetDomain) (action : String)
    (itemsUpdatedAt : Option Nat) (ts eid : Nat) : EntityChangeJob :=
  { timestamp := ts, id := eid, name := entityChangeJobName,
    payload := { entityType := "dataset", projectId := d.projectId,
                 datasetId := d.id, action := action,
                 dataset := { d with
                   itemsUpdatedAt := itemsUpdatedAt,
                   metadata := jsonSchemaNullableParse d.metadata,
                   inputSchema := jsonSchemaNullableParse d.inputSchema,
                   expectedOutputSchema :=
                     jsonSchemaNullableParse d.expectedOutputSchema } } }

/-- Embedding of datasetChangeEventSourcing: return immediately on a null
dataset; otherwise list the dataset versions (outside the try block), derive
the items timestamp (the source's length-guarded first-element access is the
head of the list when non-empty), build the entity change event, and enqueue
it, logging success at info level and a failed enqueue at error level before
re-throwing. -/
def datasetChangeEventSourcing (env : Env) (datasetData : Option DatasetDomain)
    (action : String) (s : PState) : Res Unit :=
  match datasetData with
  | none => .ok () s
  | some d =>
    match env.listVersionsResult with
    | .error e => .err e s
    | .ok datasetVersions =>
      let itemsUpdatedAt := datasetVersions.head?
      let (ts, s1) := nowClock s
      let (eid, s2) := freshUuid s1
      let event := mkEntityChangeJob d action itemsUpdatedAt ts eid
      if env.entityQueueAvailable then
        match env.entityAddResult event with
        | .error e => .err e (logError (publishFailedMsg d e) s2)
        | .ok _ =>
          .ok () (logInfo (queuedEntityMsg d action)
            (pushEffect (.enqueueEntityChange event) s2))
      else .ok () (logInfo (queuedEntityMsg d action) s2)

/-! ### Observations on the effect trace -/

/-- The execution records created along a trace, in creation order. -/
def createdRecords : List Effect → List ExecutionRecord
  | [] => []
  | .createExecution r :: t => r :: createdRecords t
  | _ :: t => createdRecords t

/-- The identifiers of the created execution records, in creation order. -/
def createdIds (tr : List Effect) : List Nat :=
  (createdRecords tr).map (fun r => r.id)

/-- The webhook jobs enqueued along a trace, in enqueue order. -/
def enqueuedJobs : List Effect → List WebhookJob
  | [] => []
  | .enqueueWebhook j :: t => j :: enqueuedJobs t
  | _ :: t => enqueuedJobs t

/-- The entity change jobs enqueued along a trace, in enqueue order. -/
def enqueuedEntityJobs : List Effect → List EntityChangeJob
  | [] => []
  | .enqueueEntityChange e :: t => e :: enqueuedEntityJobs t
  | _ :: t => enqueuedEntityJobs t

/-- Walks a trace chronologically carrying the identifiers of the PENDING
execution records created so far (on top of the initially known ones) and
checks that every webhook job was enqueued only after a PENDING execution
record with its execution id had been created. -/
def coveredB (seen : List Nat) : List Effect → Bool
  | [] => true
  | .createExecution r :: t =>
    coveredB (if r.status = .PENDING then r.id :: seen else seen) t
  | .enqueueWebhook j :: t => seen.contains j.payload.executionId && coveredB seen t
  | .enqueueEntityChange _ :: t => coveredB seen t

/-- The PENDING execution ids known after walking a trace. -/
def seenAfter (seen : List Nat) : List Effect → List Nat
  | [] => seen
  | .createExecution r :: t =>
    seenAfter (if r.status = .PENDING then r.id :: seen else seen) t
  | .enqueueWebhook _ :: t => seenAfter seen t
  | .enqueueEntityChange _ :: t => seenAfter seen t

/-! ### Rendering the enqueued job shapes as JSON objects -/

/-- A nullable string field as JSON. -/
def optStrJson : Option String → Json
  | some s => .str s
  | none => .null

/-- A nullable JSON field as JSON. -/
def optJson : Option Json → Json
  | some j => j
  | none => .null

/-- A nullable date field as JSON. -/
def optNatJson : Option Nat → Json
  | some n => .num n
  | none => .null

/-- The dataset snapshot as the JSON object the job serializes to: exactly the
fields of the dataset domain object. -/
def datasetJson (d : DatasetDomain) : Json :=
  .obj [("id", .str d.id), ("name", .str d.name), ("projectId", .str d.projectId),
        ("description", optStrJson d.description), ("metadata", optJson d.metadata),
        ("remoteExperimentUrl", optStrJson d.remoteExperimentUrl),
        ("remoteExperimentPayload", optJson d.remoteExperimentPayload),
        ("inputSchema", optJson d.inputSchema),
        ("expectedOutputSchema", optJson d.expectedOutputSchema),
        ("itemsUpdatedAt", optNatJson d.itemsUpdatedAt),
        ("createdAt", .num d.createdAt), ("updatedAt", .num d.updatedAt)]

/-- The inner payload of a webhook job as the JSON object literal built in
enqueueAutomationAction: exactly the keys action, type and dataset. -/
def webhookInnerJson (j : WebhookJob) : Json :=
  .obj [("action", .str j.payload.payload.action),
        ("type", .str j.payload.payload.type),
        ("dataset", datasetJson j.payload.payload.dataset)]

/-- The payload of a webhook job as its JSON object literal. -/
def webhookPayloadJson (j : WebhookJob) : Json :=
  .obj [("projectId", .str j.payload.projectId),
        ("automationId", .str j.payload.automationId),
        ("executionId", .num j.payload.executionId),
        ("payload", webhookInnerJson j)]

/-- A webhook job as the JSON object literal passed to WebhookQueue.add. -/
def webhookJobJson (j : WebhookJob) : Json :=
  .obj [("timestamp", .num j.timestamp), ("id", .num j.id),
        ("payload", webhookPayloadJson j), ("name", .str j.name)]

/-! ### Run invariants -/

/-- Shape facts about a webhook job enqueued while processing a given event:
its queue job name, the entity-type discriminator, the action kind, the
owning project, and the snapshot of the event's dataset. -/
def JobWellFormed (event : DatasetChangeEvent) (j : WebhookJob) : Prop :=
  j.name = webhookJobName ∧
  j.payload.payload.type = "dataset" ∧
  j.payload.payload.action = event.action ∧
  j.payload.projectId = event.projectId ∧
  j.payload.payload.dataset = event.dataset

/-- The invariant maintained by a processor run: every webhook job was
preceded by a PENDING execution record carrying its execution id, created
execution ids are pairwise distinct and below the identifier supply, every
created record is PENDING, and every enqueued job is well formed for the
event being processed. -/
def RunInv (event : DatasetChangeEvent) (s : PState) : Prop :=
  coveredB [] s.trace = true ∧
  (createdIds s.trace).Nodup ∧
  (∀ i ∈ createdIds s.trace, i < s.uuidCounter) ∧
  (createdRecords s.trace).all (fun r => r.status == ActionExecutionStatus.PENDING) = true ∧
  (∀ j ∈ enqueuedJobs s.trace, JobWellFormed event j)

/-! ### Concrete sample inputs used by witness statements -/

/-- A concrete dataset. -/
def sampleDataset : DatasetDomain :=
  { id := "ds1", name := "eval-set", projectId := "p1", description := none,
    metadata := none, remoteExperimentUrl := none, remoteExperimentPayload := none,
    inputSchema := none, expectedOutputSchema := none, itemsUpdatedAt := none,
    createdAt := 0, updatedAt := 0 }

/-- A concrete change event for the sample dataset. -/
def sampleEvent : DatasetChangeEvent :=
  { projectId := "p1", datasetId := "ds1", action := "updated", dataset := sampleDataset }

/-- The initial processing state of a fresh run. -/
def sampleState : PState := { uuidCounter := 0, clock := 0, trace := [], logs := [] }

/-- A well-configured trigger matching updated events. -/
def sampleTrigger : Trigger :=
  { id := "t1", projectId := "p1",
    filter := [{ column := "action", op := .eq, value := "updated" }],
    actionIds := ["a1"] }

/-- A misconfigured trigger that matches every event but has no action ids. -/
def badTrigger : Trigger :=
  { id := "t2", projectId := "p1", filter := [], actionIds := [] }

/-- An environment in which every external call succeeds. -/
def happyEnv : Env :=
  { triggersResult := .ok [sampleTrigger],
    actionById := fun _ aId => .ok (some { id := aId }),
    automationsFor := fun _ _ => .ok [{ id := "auto1" }],
    createExecResult := fun _ => .ok (),
    webhookQueueAvailable := true,
    webhookAddResult := fun _ => .ok (),
    listVersionsResult := .ok [42],
    entityQueueAvailable := true,
    entityAddResult := fun _ => .ok () }

/-- An environment whose batch trigger lookup throws. -/
def batchFailEnv : Env := { happyEnv with triggersResult := .error "db down" }

/-- An environment whose automation lookup throws, for exercising a
per-trigger failure. -/
def automationFailEnv : Env :=
  { happyEnv with automationsFor := fun _ _ => .error "db down" }

/-- An environment whose dataset version listing throws. -/
def versionsFailEnv : Env := { happyEnv with listVersionsResult := .error "db down" }

/-- An environment whose entity change queue add call throws. -/
def entityAddFailEnv : Env :=
  { happyEnv with entityAddResult := fun _ => .error "queue down" }

/-- A fully blank header row that nonetheless records a secret-to-public
transition. -/
def blankTransitionHeader : HeaderPair :=
  { name := "", value := "", displayValue := "", isSecret := false, wasSecret := true }

/-- A form whose only header row is the blank transition row. -/
def blankTransitionForm : WebhookFormData :=
  { url := "http://example.com", headers := [blankTransitionHeader] }

/-- An in-use header undergoing a secret-to-public transition without a fresh
value. -/
def transitionHeader : HeaderPair :=
  { name := "X-Token", value := "", displayValue := "", isSecret := false, wasSecret := true }

/-- A form whose only header row is the in-use transition row. -/
def transitionForm : WebhookFormData :=
  { url := "http://example.com", headers := [transitionHeader] }

/-- A form with two header rows whose names coincide up to case. -/
def dupHeadersForm : WebhookFormData :=
  { url := "http://example.com",
    headers := [{ name := "X-Foo", value := "a", displayValue := "a",
                  isSecret := false, wasSecret := false },
                { name := "x-foo", value := "b", displayValue := "b",
                  isSecret := false, wasSecret := false }] }

/-- A stored webhook automation with one secret and one public header. -/
def sampleAutomation : AutomationDomain :=
  { action := some
      { type := "WEBHOOK",
        displayHeaders := some [("Authorization", { value := "****", secret := true }),
                                ("X-Public", { value := "pub", secret := false })] } }


/-! ### Helper lemmas: decimal rendering -/

theorem digitVal_digitChar {d : Nat} (h : d < 10) : digitVal (digitChar d) = d := by
  interval_cases d <;> decide

theorem digitChar_isDigit {d : Nat} (h : d < 10) : (digitChar d).isDigit = true := by
  interval_cases d <;> decide

theorem valLE_natDigitsLEFuel : ∀ (fuel n : Nat), n ≤ fuel →
    valLE (natDigitsLEFuel fuel n) = n := by
  intro fuel
  induction fuel with
  | zero => intro n hn; interval_cases n; rfl
  | succ f ih =>
    intro n hn
    cases n with
    | zero => rfl
    | succ m =>
      rw [natDigitsLEFuel, valLE, digitVal_digitChar (Nat.mod_lt _ (by decide)),
        ih ((m + 1) / 10) (by omega)]
      omega

theorem valLE_natDigitsLE (n : Nat) : valLE (natDigitsLE n) = n :=
  valLE_natDigitsLEFuel n n (Nat.le_refl n)

theorem natDigitsLE_inj {a b : Nat} (h : natDigitsLE a = natDigitsLE b) : a = b := by
  have ha := valLE_natDigitsLE a
  rw [h, valLE_natDigitsLE] at ha
  omega

theorem mem_natDigitsLEFuel_isDigit : ∀ (fuel n : Nat),
    ∀ c ∈ natDigitsLEFuel fuel n, c.isDigit = true := by
  intro fuel
  induction fuel with
  | zero => intro n c hc; simp [natDigitsLEFuel] at hc
  | succ f ih =>
    intro n c hc
    cases n with
    | zero => simp [natDigitsLEFuel] at hc
    | succ m =>
      rw [natDigitsLEFuel] at hc
      rcases List.mem_cons.mp hc with hc | hc
      · exact hc ▸ digitChar_isDigit (Nat.mod_lt _ (by decide))
      · exact ih ((m + 1) / 10) c hc

theorem mem_natDigitsLE_isDigit {n : Nat} : ∀ c ∈ natDigitsLE n, c.isDigit = true :=
  mem_natDigitsLEFuel_isDigit n n

theorem mem_data_natToString_isDigit {n : Nat} :
    ∀ c ∈ (natToString n).data, c.isDigit = true := by
  unfold natToString
  split
  · intro c hc
    simp only [show ("0" : String).data = ['0'] from rfl, List.mem_singleton] at hc
    subst hc; decide
  · intro c hc
    exact mem_natDigitsLE_isDigit c (List.mem_reverse.mp hc)

theorem natToString_inj {a b : Nat} (h : natToString a = natToString b) : a = b := by
  unfold natToString at h
  split at h <;> split at h
  · omega
  · rename_i ha hb
    exfalso
    have hd := congrArg String.data h
    simp only [show ("0" : String).data = ['0'] from rfl] at hd
    have : natDigitsLE b = ['0'] := by
      have := congrArg List.reverse hd
      simpa using this.symm
    have hv := valLE_natDigitsLE b
    rw [this] at hv
    simp [valLE, digitVal] at hv
    omega
  · rename_i ha hb
    exfalso
    have hd := congrArg String.data h
    simp only [show ("0" : String).data = ['0'] from rfl] at hd
    have : natDigitsLE a = ['0'] := by
      have := congrArg List.reverse hd
      simpa using this
    have hv := valLE_natDigitsLE a
    rw [this] at hv
    simp [valLE, digitVal] at hv
    omega
  · have hd := congrArg String.data h
    simp only [String.mk] at hd
    have : (natDigitsLE a).reverse = (natDigitsLE b).reverse := hd
    exact natDigitsLE_inj (List.reverse_injective this)

/-- Splitting a character list at a separator character that occurs in neither
left part is unambiguous. -/
theorem sepSplit {c : Char} : ∀ (l1 l2 t1 t2 : List Char), c ∉ l1 → c ∉ l2 →
    l1 ++ c :: t1 = l2 ++ c :: t2 → l1 = l2 ∧ t1 = t2 := by
  intro l1
  induction l1 with
  | nil =>
    intro l2 t1 t2 _ h2 h
    cases l2 with
    | nil => simpa using h
    | cons b bs =>
      exfalso
      simp only [List.nil_append, List.cons_append, List.cons.injEq] at h
      exact h2 (h.1 ▸ List.mem_cons_self b bs)
  | cons a as ih =>
    intro l2 t1 t2 h1 h2 h
    cases l2 with
    | nil =>
      exfalso
      simp only [List.nil_append, List.cons_append, List.cons.injEq] at h
      exact h1 (h.1 ▸ List.mem_cons_self a as)
    | cons b bs =>
      simp only [List.cons_append, List.cons.injEq] at h
      obtain ⟨rfl, h⟩ := h
      have hr := ih bs t1 t2 (fun hc => h1 (List.mem_cons_of_mem _ hc))
        (fun hc => h2 (List.mem_cons_of_mem _ hc)) h
      exact ⟨by rw [hr.1], hr.2⟩

/-! ### Helper lemmas: message disambiguation -/

theorem ne_of_data_head {s t : String} (h : s.data.head? ≠ t.data.head?) : s ≠ t :=
  fun he => h (by rw [he])

theorem data_headerMsg (k : Nat) (r : String) :
    (headerMsg k r).data
      = "Header ".data ++ ((natToString (k + 1)).data ++ (':' :: ' ' :: r.data)) := by
  simp only [headerMsg, String.data_append, List.append_assoc]
  rfl

theorem head_data_headerMsg (k : Nat) (r : String) :
    (headerMsg k r).data.head? = some 'H' := by
  rw [data_headerMsg]
  rfl

theorem headerMsg_inj {k i : Nat} {a b : String} (h : headerMsg k a = headerMsg i b) :
    k = i ∧ a = b := by
  have hd := congrArg String.data h
  rw [data_headerMsg, data_headerMsg] at hd
  have hd2 := List.append_cancel_left hd
  have hsep := sepSplit (natToString (k + 1)).data (natToString (i + 1)).data
    (' ' :: a.data) (' ' :: b.data)
    (fun hmem => by have := mem_data_natToString_isDigit _ hmem; simp at this)
    (fun hmem => by have := mem_data_natToString_isDigit _ hmem; simp at this)
    hd2
  refine ⟨?_, ?_⟩
  · have := natToString_inj (String.ext hsep.1)
    omega
  · have htail := hsep.2
    simp only [List.cons.injEq, true_and] at htail
    exact String.ext htail

theorem head_append_of_ne_empty {s t : String} (h : s.data ≠ []) :
    (s ++ t).data.head? = s.data.head? := by
  rw [String.data_append]
  cases hs : s.data with
  | nil => exact absurd hs h
  | cons c cs => rfl

theorem transitionRest_head (w : Bool) :
    ("A value must be provided when making a header "
      ++ (if w then "public" else "secret")).data.head? = some 'A' := by
  rw [head_append_of_ne_empty (by decide)]
  decide

theorem collisionRest_head (name : String) :
    ("\"" ++ name ++ "\" is automatically added by Langfuse and cannot be customized").data.head?
      = some '"' := by
  have h1 : ("\"" ++ name).data.head? = some '"' := by
    rw [head_append_of_ne_empty (by decide)]
    decide
  have h2 : ("\"" ++ name).data ≠ [] := by
    intro hnil
    rw [hnil] at h1
    simp at h1
  rw [head_append_of_ne_empty h2, h1]

theorem nameEmptyMsg_ne_transitionMsg (i k : Nat) (w : Bool) :
    nameEmptyMsg i ≠ transitionMsg k w := by
  intro h
  have hr := (headerMsg_inj h).2
  cases w <;> exact absurd hr (by decide)

theorem valueEmptyMsg_ne_transitionMsg (i k : Nat) (w : Bool) :
    valueEmptyMsg i ≠ transitionMsg k w := by
  intro h
  have hr := (headerMsg_inj h).2
  cases w <;> exact absurd hr (by decide)

theorem collisionMsg_ne_transitionMsg (i k : Nat) (nm : String) (w : Bool) :
    collisionMsg i nm ≠ transitionMsg k w := by
  intro h
  have hr := (headerMsg_inj h).2
  have h1 := collisionRest_head nm
  rw [hr, transitionRest_head w] at h1
  simp at h1

theorem headerMsg_ne_urlRequiredMsg {k : Nat} {r : String} :
    headerMsg k r ≠ urlRequiredMsg := by
  intro h
  have hh := head_data_headerMsg k r
  rw [h] at hh
  exact absurd hh (by decide)

theorem headerMsg_ne_duplicateMsg {k : Nat} {r : String} :
    headerMsg k r ≠ duplicateMsg := by
  intro h
  have hh := head_data_headerMsg k r
  rw [h] at hh
  exact absurd hh (by decide)

theorem urlRequiredMsg_ne_transitionMsg (k : Nat) (w : Bool) :
    urlRequiredMsg ≠ transitionMsg k w :=
  fun h => headerMsg_ne_urlRequiredMsg (h.symm)

theorem duplicateMsg_ne_transitionMsg (k : Nat) (w : Bool) :
    duplicateMsg ≠ transitionMsg k w :=
  fun h => headerMsg_ne_duplicateMsg (h.symm)

theorem urlRequiredMsg_ne_duplicateMsg : urlRequiredMsg ≠ duplicateMsg := by decide

/-! ### Helper lemmas: counting validation messages -/

theorem headerViolations_shape {k : Nat} {h : HeaderPair} :
    ∀ e ∈ headerViolations k h, ∃ r, e = headerMsg k r := by
  intro e he
  unfold headerViolations at he
  split at he
  · simp only [List.mem_append] at he
    rcases he with (((he | he) | he) | he)
    · split at he
      · exact ⟨_, by simpa using he⟩
      · simp at he
    · split at he
      · exact ⟨_, by simpa using he⟩
      · simp at he
    · split at he
      · exact ⟨_, by simpa using he⟩
      · simp at he
    · split at he
      · exact ⟨_, by simpa using he⟩
      · simp at he
  · simp at he

theorem count_transitionMsg_headerViolations_of_ne {k i : Nat} {h : HeaderPair} {w : Bool}
    (hne : k ≠ i) : (headerViolations k h).count (transitionMsg i w) = 0 := by
  rw [List.count_eq_zero]
  intro hmem
  obtain ⟨r, hr⟩ := headerViolations_shape _ hmem
  exact hne (headerMsg_inj (hr.symm)).1

theorem count_duplicateMsg_headerViolations {k : Nat} {h : HeaderPair} :
    (headerViolations k h).count duplicateMsg = 0 := by
  rw [List.count_eq_zero]
  intro hmem
  obtain ⟨r, hr⟩ := headerViolations_shape _ hmem
  exact headerMsg_ne_duplicateMsg hr.symm

theorem count_transitionMsg_headerViolations_self {k : Nat} {h : HeaderPair}
    (hname : h.name.jsTrim ≠ "") (htr : h.wasSecret ≠ h.isSecret) (hval : h.value.jsTrim = "") :
    (headerViolations k h).count (transitionMsg k h.wasSecret) = 1 := by
  unfold headerViolations
  rw [if_pos (Or.inl hname)]
  simp only [List.count_append]
  have hseg1 : (if h.name.jsTrim = "" then [nameEmptyMsg k] else []).count
      (transitionMsg k h.wasSecret) = 0 := by
    rw [if_neg hname]; rfl
  have hseg2 : (if h.value.jsTrim = "" ∧ h.isSecret = false then [valueEmptyMsg k] else []).count
      (transitionMsg k h.wasSecret) = 0 := by
    split
    · simp [List.count_cons, valueEmptyMsg_ne_transitionMsg k k h.wasSecret]
    · rfl
  have hseg3 : (if h.wasSecret ≠ h.isSecret ∧ h.value.jsTrim = ""
      then [transitionMsg k h.wasSecret] else []).count (transitionMsg k h.wasSecret) = 1 := by
    rw [if_pos ⟨htr, hval⟩]
    simp [List.count_cons]
  have hseg4 : (if h.name.jsTrim ≠ "" ∧ webhookDefaultHeaderKeys.contains h.name.jsTrim.jsLower
      then [collisionMsg k h.name] else []).count (transitionMsg k h.wasSecret) = 0 := by
    split
    · simp [List.count_cons, collisionMsg_ne_transitionMsg k k h.name h.wasSecret]
    · rfl
  omega

theorem count_transitionMsg_violationsFrom_of_lt {i : Nat} {w : Bool} :
    ∀ (hs : List HeaderPair) (k : Nat), i < k →
      (violationsFrom k hs).count (transitionMsg i w) = 0 := by
  intro hs
  induction hs with
  | nil => intro k _; simp [violationsFrom]
  | cons h t ih =>
    intro k hk
    unfold violationsFrom
    rw [List.count_append, count_transitionMsg_headerViolations_of_ne (by omega),
      ih (k + 1) (by omega)]

theorem count_transitionMsg_violationsFrom :
    ∀ (hs : List HeaderPair) (k j : Nat) (hj : j < hs.length),
      (hs.get ⟨j, hj⟩).name.jsTrim ≠ "" →
      (hs.get ⟨j, hj⟩).wasSecret ≠ (hs.get ⟨j, hj⟩).isSecret →
      (hs.get ⟨j, hj⟩).value.jsTrim = "" →
      (violationsFrom k hs).count (transitionMsg (k + j) (hs.get ⟨j, hj⟩).wasSecret) = 1 := by
  intro hs
  induction hs with
  | nil => intro k j hj; simp at hj
  | cons h t ih =>
    intro k j hj hname htr hval
    cases j with
    | zero =>
      have hname' : h.name.jsTrim ≠ "" := hname
      have htr' : h.wasSecret ≠ h.isSecret := htr
      have hval' : h.value.jsTrim = "" := hval
      show (headerViolations k h ++ violationsFrom (k + 1) t).count
        (transitionMsg (k + 0) h.wasSecret) = 1
      rw [Nat.add_zero, List.count_append,
        count_transitionMsg_headerViolations_self hname' htr' hval',
        count_transitionMsg_violationsFrom_of_lt t (k + 1) (by omega)]
    | succ j' =>
      have hj' : j' < t.length := Nat.lt_of_succ_lt_succ hj
      have hname' : (t.get ⟨j', hj'⟩).name.jsTrim ≠ "" := hname
      have htr' : (t.get ⟨j', hj'⟩).wasSecret ≠ (t.get ⟨j', hj'⟩).isSecret := htr
      have hval' : (t.get ⟨j', hj'⟩).value.jsTrim = "" := hval
      show (headerViolations k h ++ violationsFrom (k + 1) t).count
        (transitionMsg (k + (j' + 1)) (t.get ⟨j', hj'⟩).wasSecret) = 1
      rw [List.count_append,
        count_transitionMsg_headerViolations_of_ne (by omega),
        show k + (j' + 1) = (k + 1) + j' by omega,
        ih (k + 1) j' hj' hname' htr' hval']

theorem count_duplicateMsg_violationsFrom :
    ∀ (hs : List HeaderPair) (k : Nat), (violationsFrom k hs).count duplicateMsg = 0 := by
  intro hs
  induction hs with
  | nil => intro k; rfl
  | cons h t ih =>
    intro k
    unfold violationsFrom
    rw [List.count_append, count_duplicateMsg_headerViolations, ih (k + 1)]

theorem two_le_countP {α : Type} :
    ∀ (l : List α) (p : α → Bool) (i j : Nat) (hi : i < l.length) (hj : j < l.length),
      i < j → p (l.get ⟨i, hi⟩) = true → p (l.get ⟨j, hj⟩) = true → 2 ≤ l.countP p := by
  intro l
  induction l with
  | nil => intro p i j hi; simp at hi
  | cons a t ih =>
    intro p i j hi hj hij hpi hpj
    cases i with
    | zero =>
      cases j with
      | zero => omega
      | succ j' =>
        have hj' : j' < t.length := Nat.lt_of_succ_lt_succ hj
        have hpa : p a = true := hpi
        have hpj' : p (t.get ⟨j', hj'⟩) = true := hpj
        have h1 : 0 < t.countP p :=
          List.countP_pos_iff.mpr ⟨t.get ⟨j', hj'⟩, List.get_mem t j' hj', hpj'⟩
        rw [List.countP_cons, hpa]
        simp only [if_true]
        omega
    | succ i' =>
      cases j with
      | zero => omega
      | succ j' =>
        have hi' : i' < t.length := Nat.lt_of_succ_lt_succ hi
        have hj' : j' < t.length := Nat.lt_of_succ_lt_succ hj
        have h1 := ih p i' j' hi' hj' (by omega) hpi hpj
        rw [List.countP_cons]
        omega

theorem dedup_length_lt_of_not_nodup {α : Type} [DecidableEq α] {l : List α}
    (h : ¬ l.Nodup) : l.dedup.length < l.length := by
  have hsub := List.dedup_sublist l
  have hle := hsub.length_le
  rcases Nat.lt_or_ge l.dedup.length l.length with hlt | hge
  · exact hlt
  · exfalso
    have heq : l.dedup = l := hsub.eq_of_length (by omega)
    exact h (heq ▸ List.nodup_dedup l)

theorem two_le_count_headerNames (hs : List HeaderPair) (i j : Nat)
    (hi : i < hs.length) (hj : j < hs.length) (hij : i < j)
    (hni : (hs.get ⟨i, hi⟩).name.jsTrim ≠ "") (hnj : (hs.get ⟨j, hj⟩).name.jsTrim ≠ "")
    (heq : (hs.get ⟨i, hi⟩).name.jsTrim.jsLower = (hs.get ⟨j, hj⟩).name.jsTrim.jsLower) :
    2 ≤ (headerNamesOf hs).count ((hs.get ⟨i, hi⟩).name.jsTrim.jsLower) := by
  have hcount : (headerNamesOf hs).count ((hs.get ⟨i, hi⟩).name.jsTrim.jsLower)
      = hs.countP (fun h => (h.name.jsTrim.jsLower == (hs.get ⟨i, hi⟩).name.jsTrim.jsLower)
          && (h.name.jsTrim != "")) := by
    unfold headerNamesOf
    rw [show ((hs.filter fun h => h.name.jsTrim != "").map fun h => h.name.jsTrim.jsLower).count
        ((hs.get ⟨i, hi⟩).name.jsTrim.jsLower)
      = ((hs.filter fun h => h.name.jsTrim != "").map fun h => h.name.jsTrim.jsLower).countP
        (fun x => x == (hs.get ⟨i, hi⟩).name.jsTrim.jsLower) from rfl]
    rw [List.countP_map, List.countP_filter]
    rfl
  rw [hcount]
  apply two_le_countP hs _ i j hi hj hij
  · simp only [Bool.and_eq_true, beq_iff_eq, bne_iff_ne]
    exact ⟨trivial, hni⟩
  · simp only [Bool.and_eq_true, beq_iff_eq, bne_iff_ne]
    exact ⟨heq.symm, hnj⟩

/-! ### Helper lemmas: trace observations -/

theorem createdRecords_append (t1 t2 : List Effect) :
    createdRecords (t1 ++ t2) = createdRecords t1 ++ createdRecords t2 := by
  induction t1 with
  | nil => rfl
  | cons e t ih => cases e <;> simp [createdRecords, ih]

theorem enqueuedJobs_append (t1 t2 : List Effect) :
    enqueuedJobs (t1 ++ t2) = enqueuedJobs t1 ++ enqueuedJobs t2 := by
  induction t1 with
  | nil => rfl
  | cons e t ih => cases e <;> simp [enqueuedJobs, ih]

theorem seenAfter_append (t1 t2 : List Effect) :
    ∀ seen, seenAfter seen (t1 ++ t2) = seenAfter (seenAfter seen t1) t2 := by
  induction t1 with
  | nil => intro seen; rfl
  | cons e t ih => intro seen; cases e <;> simp [seenAfter, ih]

theorem coveredB_append (t1 t2 : List Effect) :
    ∀ seen, coveredB seen (t1 ++ t2)
      = (coveredB seen t1 && coveredB (seenAfter seen t1) t2) := by
  induction t1 with
  | nil => intro seen; simp [coveredB, seenAfter]
  | cons e t ih =>
    intro seen
    cases e with
    | createExecution r => simp [coveredB, seenAfter, ih]
    | enqueueWebhook j => simp [coveredB, seenAfter, ih, Bool.and_assoc]
    | enqueueEntityChange e => simp [coveredB, seenAfter, ih]

/-! ### Helper lemmas: run invariant preservation -/

theorem runInv_of_same_trace {event : DatasetChangeEvent} {s s' : PState}
    (h : RunInv event s) (htrace : s'.trace = s.trace)
    (hcnt : s.uuidCounter ≤ s'.uuidCounter) : RunInv event s' := by
  obtain ⟨h1, h2, h3, h4, h5⟩ := h
  refine ⟨htrace ▸ h1, htrace ▸ h2, ?_, htrace ▸ h4, ?_⟩
  · intro i hi
    rw [htrace] at hi
    exact lt_of_lt_of_le (h3 i hi) hcnt
  · intro j hj
    rw [htrace] at hj
    exact h5 j hj

theorem runInv_push_create {event : DatasetChangeEvent} {s : PState}
    (h : RunInv event s) (r : ExecutionRecord) (hr : r.status = .PENDING)
    (hid : r.id = s.uuidCounter) (n cl : Nat) (lg : List LogEntry)
    (hn : s.uuidCounter < n) :
    RunInv event ⟨n, cl, s.trace ++ [.createExecution r], lg⟩ := by
  obtain ⟨h1, h2, h3, h4, h5⟩ := h
  refine ⟨?_, ?_, ?_, ?_, ?_⟩
  · rw [coveredB_append, h1]
    rfl
  · show ((createdRecords (s.trace ++ [.createExecution r])).map (fun r => r.id)).Nodup
    rw [createdRecords_append, List.map_append]
    rw [List.nodup_append]
    refine ⟨h2, List.nodup_singleton _, ?_⟩
    intro a ha hb
    simp only [createdRecords, List.map_cons, List.map_nil, List.mem_singleton] at hb
    have := h3 a ha
    omega
  · intro i hi
    show i < n
    rw [show (⟨n, cl, s.trace ++ [.createExecution r], lg⟩ : PState).trace
      = s.trace ++ [.createExecution r] from rfl] at hi
    unfold createdIds at hi
    rw [createdRecords_append, List.map_append] at hi
    rcases List.mem_append.mp hi with hi | hi
    · exact lt_of_lt_of_le (h3 i hi) (by omega)
    · simp only [createdRecords, List.map_cons, List.map_nil, List.mem_singleton] at hi
      omega
  · rw [show (⟨n, cl, s.trace ++ [.createExecution r], lg⟩ : PState).trace
      = s.trace ++ [.createExecution r] from rfl]
    rw [createdRecords_append, List.all_append, h4]
    simp [createdRecords, hr]
  · intro j hj
    rw [show (⟨n, cl, s.trace ++ [.createExecution r], lg⟩ : PState).trace
      = s.trace ++ [.createExecution r] from rfl] at hj
    rw [enqueuedJobs_append] at hj
    rcases List.mem_append.mp hj with hj | hj
    · exact h5 j hj
    · simp [enqueuedJobs] at hj

theorem runInv_push_webhook {event : DatasetChangeEvent} {s : PState}
    (h : RunInv event s) (j : WebhookJob)
    (hcov : (seenAfter [] s.trace).contains j.payload.executionId = true)
    (hwf : JobWellFormed event j) (n cl : Nat) (lg : List LogEntry)
    (hn : s.uuidCounter ≤ n) :
    RunInv event ⟨n, cl, s.trace ++ [.enqueueWebhook j], lg⟩ := by
  obtain ⟨h1, h2, h3, h4, h5⟩ := h
  refine ⟨?_, ?_, ?_, ?_, ?_⟩
  · rw [coveredB_append, h1]
    show (true && (coveredB (seenAfter [] s.trace) [.enqueueWebhook j])) = true
    simp only [coveredB, Bool.true_and, Bool.and_true]
    exact hcov
  · show ((createdRecords (s.trace ++ [.enqueueWebhook j])).map (fun r => r.id)).Nodup
    rw [createdRecords_append]
    simpa [createdRecords] using h2
  · intro i hi
    show i < n
    rw [show (⟨n, cl, s.trace ++ [.enqueueWebhook j], lg⟩ : PState).trace
      = s.trace ++ [.enqueueWebhook j] from rfl] at hi
    unfold createdIds at hi
    rw [createdRecords_append] at hi
    simp only [createdRecords, List.append_nil] at hi
    exact lt_of_lt_of_le (h3 i hi) hn
  · rw [show (⟨n, cl, s.trace ++ [.enqueueWebhook j], lg⟩ : PState).trace
      = s.trace ++ [.enqueueWebhook j] from rfl]
    rw [createdRecords_append]
    simpa [createdRecords] using h4
  · intro j' hj
    rw [show (⟨n, cl, s.trace ++ [.enqueueWebhook j], lg⟩ : PState).trace
      = s.trace ++ [.enqueueWebhook j] from rfl] at hj
    rw [enqueuedJobs_append] at hj
    rcases List.mem_append.mp hj with hj | hj
    · exact h5 j' hj
    · simp only [enqueuedJobs, List.mem_singleton] at hj
      exact hj ▸ hwf

theorem dataset_normalize_id (d : DatasetDomain) :
    ({ d with
       metadata := jsonSchemaNullableParse d.metadata,
       inputSchema := jsonSchemaNullableParse d.inputSchema,
       expectedOutputSchema := jsonSchemaNullableParse d.expectedOutputSchema }) = d := by
  cases d
  rfl

theorem jobWellFormed_mkWebhookJob (event : DatasetChangeEvent)
    (automationId : String) (executionId ts jobId : Nat) :
    JobWellFormed event (mkWebhookJob event.dataset event.action automationId
      event.projectId executionId ts jobId) :=
  ⟨rfl, rfl, rfl, rfl, dataset_normalize_id event.dataset⟩

theorem runInv_enqueueAutomationAction (env : Env) (event : DatasetChangeEvent)
    (tId aId : String) (s : PState) (hInv : RunInv event s) :
    RunInv event (enqueueAutomationAction env event.dataset event.action tId aId
      event.projectId s).state ∧
    s.uuidCounter ≤ (enqueueAutomationAction env event.dataset event.action tId aId
      event.projectId s).state.uuidCounter := by
  unfold enqueueAutomationAction
  rcases hA : env.automationsFor event.projectId aId with e | autos
  · simp only [hA, Res.state]
    exact ⟨hInv, Nat.le_refl _⟩
  · cases autos with
    | nil =>
      simp only [hA, Res.state]
      exact ⟨hInv, Nat.le_refl _⟩
    | cons a rest =>
      cases rest with
      | cons b rest2 =>
        simp only [hA, Res.state]
        exact ⟨hInv, Nat.le_refl _⟩
      | nil =>
        simp only [hA, freshUuid]
        rcases hC : env.createExecResult (mkExecutionRecord event.dataset a.id tId aId
            event.projectId s.uuidCounter) with e | u
        · simp only [hC, Res.state]
          refine ⟨runInv_of_same_trace hInv rfl ?_, ?_⟩ <;>
            · show s.uuidCounter ≤ s.uuidCounter + 1
              omega
        · simp only [hC, logDebug, pushEffect]
          cases hW : env.webhookQueueAvailable with
          | false =>
            simp only [hW, Bool.false_eq_true, if_false, Res.state]
            refine ⟨?_, ?_⟩
            · exact runInv_push_create hInv _ rfl rfl (s.uuidCounter + 1) s.clock _
                (Nat.lt_succ_self _)
            · show s.uuidCounter ≤ s.uuidCounter + 1
              omega
          | true =>
            simp only [hW, if_true, nowClock, freshUuid]
            rcases hAdd : env.webhookAddResult (mkWebhookJob event.dataset event.action a.id
                event.projectId s.uuidCounter s.clock (s.uuidCounter + 1)) with e | u
            · simp only [hAdd, Res.state]
              refine ⟨?_, ?_⟩
              · refine runInv_of_same_trace (runInv_push_create hInv _ rfl rfl
                  (s.uuidCounter + 1) s.clock (s.logs ++ [⟨.debug, createdExecutionMsg
                    s.uuidCounter event.projectId aId⟩]) (Nat.lt_succ_self _)) rfl ?_
                show s.uuidCounter + 1 ≤ s.uuidCounter + 1 + 1
                omega
              · show s.uuidCounter ≤ s.uuidCounter + 1 + 1
                omega
            · simp only [hAdd, Res.state, pushEffect]
              refine ⟨?_, ?_⟩
              · refine runInv_push_webhook (runInv_push_create hInv _ rfl rfl
                  (s.uuidCounter + 1) s.clock (s.logs ++ [⟨.debug, createdExecutionMsg
                    s.uuidCounter event.projectId aId⟩]) (Nat.lt_succ_self _)) _ ?_
                  (jobWellFormed_mkWebhookJob event a.id s.uuidCounter s.clock
                    (s.uuidCounter + 1)) (s.uuidCounter + 1 + 1) (s.clock + 1) _ ?_
                · show (seenAfter [] (s.trace ++ [Effect.createExecution
                    (mkExecutionRecord event.dataset a.id tId aId event.projectId
                      s.uuidCounter)])).contains s.uuidCounter = true
                  rw [seenAfter_append]
                  show (s.uuidCounter :: seenAfter [] s.trace).contains s.uuidCounter = true
                  simp [List.contains_cons]
                · show s.uuidCounter + 1 ≤ s.uuidCounter + 1 + 1
                  omega
              · show s.uuidCounter ≤ s.uuidCounter + 1 + 1
                omega

theorem runInv_dispatchActions (env : Env) (event : DatasetChangeEvent) (t : Trigger) :
    ∀ (acts : List String) (s : PState), RunInv event s →
      RunInv event (dispatchActions env event t acts s).state ∧
      s.uuidCounter ≤ (dispatchActions env event t acts s).state.uuidCounter := by
  intro acts
  induction acts with
  | nil => intro s h; exact ⟨h, Nat.le_refl _⟩
  | cons aId rest ih =>
    intro s h
    unfold dispatchActions
    rcases hA : env.actionById event.projectId aId with e | oa
    · simp only [hA, Res.state]
      exact ⟨h, Nat.le_refl _⟩
    · cases oa with
      | none =>
        simp only [hA]
        have hstep := ih (logError (actionNotFoundMsg aId) s)
          (runInv_of_same_trace h rfl (Nat.le_refl _))
        exact ⟨hstep.1, hstep.2⟩
      | some ar =>
        simp only [hA]
        have henq := runInv_enqueueAutomationAction env event t.id aId s h
        rcases hE : enqueueAutomationAction env event.dataset event.action t.id aId
            event.projectId s with ⟨v, s1⟩ | ⟨e, s1⟩
        · rw [hE] at henq
          simp only [Res.state] at henq
          simp only [hE]
          have hstep := ih s1 henq.1
          exact ⟨hstep.1, le_trans henq.2 hstep.2⟩
        · rw [hE] at henq
          simp only [Res.state] at henq
          simp only [hE, Res.state]
          exact henq

theorem runInv_tryProcessTrigger (env : Env) (event : DatasetChangeEvent) (t : Trigger)
    (s : PState) (h : RunInv event s) :
    RunInv event (tryProcessTrigger env event t s).state ∧
    s.uuidCounter ≤ (tryProcessTrigger env event t s).state.uuidCounter := by
  unfold tryProcessTrigger
  cases hF : evaluateFilter { dataset := event.dataset, action := event.action : EventData }
      t.filter fieldMapper with
  | false =>
    simp only [hF, Bool.false_eq_true, if_false, Res.state]
    exact ⟨runInv_of_same_trace h rfl (Nat.le_refl _), Nat.le_refl _⟩
  | true =>
    simp only [hF, if_true]
    cases hL : t.actionIds.length != 1 with
    | true =>
      simp only [hL, if_true, Res.state]
      exact ⟨runInv_of_same_trace h rfl (Nat.le_refl _), Nat.le_refl _⟩
    | false =>
      simp only [hL, Bool.false_eq_true, if_false]
      exact runInv_dispatchActions env event t t.actionIds (logDebug (matchesMsg t) s)
        (runInv_of_same_trace h rfl (Nat.le_refl _))

theorem runInv_processOneTrigger (env : Env) (event : DatasetChangeEvent) (t : Trigger)
    (s : PState) (h : RunInv event s) :
    RunInv event (processOneTrigger env event t s) ∧
    s.uuidCounter ≤ (processOneTrigger env event t s).uuidCounter := by
  unfold processOneTrigger
  have htry := runInv_tryProcessTrigger env event t s h
  rcases hE : tryProcessTrigger env event t s with ⟨v, s1⟩ | ⟨e, s1⟩ <;>
    rw [hE] at htry <;> simp only [Res.state] at htry <;> simp only [hE]
  · exact htry
  · exact ⟨runInv_of_same_trace htry.1 rfl (Nat.le_refl _), htry.2⟩

theorem runInv_processTriggers (env : Env) (event : DatasetChangeEvent) :
    ∀ (ts : List Trigger) (s : PState), RunInv event s →
      RunInv event (processTriggers env event ts s) ∧
      s.uuidCounter ≤ (processTriggers env event ts s).uuidCounter := by
  intro ts
  induction ts with
  | nil => intro s h; exact ⟨h, Nat.le_refl _⟩
  | cons t rest ih =>
    intro s h
    unfold processTriggers
    have h1 := runInv_processOneTrigger env event t s h
    have h2 := ih (processOneTrigger env event t s) h1.1
    exact ⟨h2.1, le_trans h1.2 h2.2⟩

theorem runInv_initial (event : DatasetChangeEvent) (c0 cl0 : Nat) (lg0 : List LogEntry) :
    RunInv event ⟨c0, cl0, [], lg0⟩ := by
  refine ⟨rfl, List.nodup_nil, ?_, rfl, ?_⟩
  · intro i hi
    simp [createdIds, createdRecords] at hi
  · intro j hj
    simp [enqueuedJobs] at hj

theorem runInv_datasetVersionProcessor (env : Env) (event : DatasetChangeEvent)
    (c0 cl0 : Nat) (lg0 : List LogEntry) :
    RunInv event (datasetVersionProcessor env event ⟨c0, cl0, [], lg0⟩).state := by
  have hInit := runInv_initial event c0 cl0 lg0
  unfold datasetVersionProcessor
  rcases hT : env.triggersResult with e | ts
  · simp only [hT, Res.state]
    exact runInv_of_same_trace hInit rfl (Nat.le_refl _)
  · simp only [hT, Res.state]
    exact (runInv_processTriggers env event ts
      (logDebug (foundTriggersMsg ts.length)
        (logInfo (processingMsg event) ⟨c0, cl0, [], lg0⟩))
      (runInv_of_same_trace hInit rfl (Nat.le_refl _))).1

/-! ### Claims -/

/-- C1: In every run of the change event processor, every webhook job enqueued
to the webhook queue is preceded in the effect trace by the creation and
persistence of an execution record carrying that job's execution id with
status PENDING; the execution ids created during the run are fresh (pairwise
distinct draws from the identifier supply), and every created record has
status PENDING. -/
theorem execution_record_precedes_webhook_job (env : Env) (event : DatasetChangeEvent)
    (c0 cl0 : Nat) (lg0 : List LogEntry) :
    coveredB [] (datasetVersionProcessor env event ⟨c0, cl0, [], lg0⟩).state.trace = true ∧
    (createdIds (datasetVersionProcessor env event ⟨c0, cl0, [], lg0⟩).state.trace).Nodup ∧
    ((createdRecords (datasetVersionProcessor env event ⟨c0, cl0, [], lg0⟩).state.trace).all
      (fun r => r.status == ActionExecutionStatus.PENDING)) = true := by
  have h := runInv_datasetVersionProcessor env event c0 cl0 lg0
  exact ⟨h.1, h.2.1, h.2.2.2.1⟩

/-- C3: when the batch trigger lookup succeeds, the processor returns normally
after running the total per-trigger loop over every loaded trigger, so
per-trigger failures are never re-raised; an error thrown inside one
trigger's try block is caught and logged at error level, and the loop
continues with the remaining triggers from the caught iteration's state. -/
theorem per_trigger_failures_isolated (env : Env) (event : DatasetChangeEvent)
    (ts : List Trigger) (s : PState) (h : env.triggersResult = .ok ts) :
    (datasetVersionProcessor env event s = .ok ()
      (processTriggers env event ts
        (logDebug (foundTriggersMsg ts.length) (logInfo (processingMsg event) s)))) ∧
    (∀ (t : Trigger) (s1 : PState) (e : String) (s2 : PState),
      tryProcessTrigger env event t s1 = .err e s2 →
      processOneTrigger env event t s1 = logError (triggerErrorMsg t event e) s2 ∧
      ∀ rest, processTriggers env event (t :: rest) s1 =
        processTriggers env event rest (logError (triggerErrorMsg t event e) s2)) := by
  refine ⟨?_, ?_⟩
  · unfold datasetVersionProcessor
    simp only [h]
  · intro t s1 e s2 htry
    have h1 : processOneTrigger env event t s1 = logError (triggerErrorMsg t event e) s2 := by
      unfold processOneTrigger
      rw [htry]
    refine ⟨h1, fun rest => ?_⟩
    show processTriggers env event rest (processOneTrigger env event t s1) = _
    rw [h1]

/-- Witness for C3: with an environment whose automation lookup throws, the
matching sample trigger's iteration throws, is caught and logged, and the
processor still returns normally. -/
theorem per_trigger_failures_isolated_witness :
    automationFailEnv.triggersResult = .ok [sampleTrigger] ∧
    tryProcessTrigger automationFailEnv sampleEvent sampleTrigger sampleState
      = .err "db down" (logDebug (matchesMsg sampleTrigger) sampleState) ∧
    datasetVersionProcessor automationFailEnv sampleEvent sampleState = .ok ()
      (processTriggers automationFailEnv sampleEvent [sampleTrigger]
        (logDebug (foundTriggersMsg 1)
          (logInfo (processingMsg sampleEvent) sampleState))) ∧
    processOneTrigger automationFailEnv sampleEvent sampleTrigger sampleState
      = logError (triggerErrorMsg sampleTrigger sampleEvent "db down")
        (logDebug (matchesMsg sampleTrigger) sampleState) := by
  refine ⟨rfl, rfl, ?_, ?_⟩
  · exact (per_trigger_failures_isolated automationFailEnv sampleEvent [sampleTrigger]
      sampleState rfl).1
  · exact ((per_trigger_failures_isolated automationFailEnv sampleEvent [sampleTrigger]
      sampleState rfl).2 sampleTrigger sampleState "db down"
      (logDebug (matchesMsg sampleTrigger) sampleState) rfl).1

/-- C7: the read-path representation built by parseHeaders never exposes the
stored value of a secret header in its value field: every returned header
pair whose secret flag is set has the empty string as its value, whatever the
stored value was. -/
theorem parseHeaders_redacts_secret_values (automation : Option AutomationDomain)
    (hp : HeaderPair) (hmem : hp ∈ parseHeaders automation) (hsec : hp.isSecret = true) :
    hp.value = "" := by
  unfold parseHeaders at hmem
  rcases automation with _ | au
  · simp at hmem
  · rcases au with ⟨oact⟩
    rcases oact with _ | act
    · simp at hmem
    · rcases act with ⟨ty, dh⟩
      by_cases ht : ty = "WEBHOOK"
      · simp only [ht, if_true] at hmem
        rcases dh with _ | entries
        · simp at hmem
        · simp only [List.mem_map] at hmem
          obtain ⟨p, hpmem, rfl⟩ := hmem
          have hs : p.2.secret = true := hsec
          show (if p.2.secret then "" else p.2.value) = ""
          rw [hs]
          rfl
      · simp only [ht, if_false] at hmem
        simp at hmem

/-- Witness for C7: the stored secret Authorization header of the sample
automation is returned with an empty value field. -/
theorem parseHeaders_redacts_secret_values_witness :
    ({ name := "Authorization", value := "", displayValue := "****",
       isSecret := true, wasSecret := true } : HeaderPair)
      ∈ parseHeaders (some sampleAutomation) ∧
    ({ name := "Authorization", value := "", displayValue := "****",
       isSecret := true, wasSecret := true } : HeaderPair).isSecret = true ∧
    ({ name := "Authorization", value := "", displayValue := "****",
       isSecret := true, wasSecret := true } : HeaderPair).value = "" := by
  refine ⟨by decide, by decide, ?_⟩
  exact parseHeaders_redacts_secret_values (some sampleAutomation) _ (by decide) (by decide)

/-- C9: the field mapper installed by the dataset change event processor
resolves only the column strings "action" and "Name": every other column,
including the lowercase id "name", which is the only column advertised by
datasetActionFilterOptions, resolves to none, so a filter condition on any
such column never matches. -/
theorem fieldMapper_only_action_and_Name :
    (∀ (data : EventData) (column : String), column ≠ "action" → column ≠ "Name" →
      fieldMapper data column = none) ∧
    (datasetActionFilterOptions.map (fun c => c.id) = ["name"]) ∧
    (∀ (data : EventData) (cond : FilterCondition), cond.column ≠ "action" →
      cond.column ≠ "Name" → evalCondition fieldMapper data cond = false) := by
  have hmap : ∀ (data : EventData) (column : String), column ≠ "action" → column ≠ "Name" →
      fieldMapper data column = none := by
    intro data column h1 h2
    unfold fieldMapper
    rw [if_neg h1, if_neg h2]
  refine ⟨hmap, rfl, ?_⟩
  intro data cond h1 h2
  unfold evalCondition
  rw [hmap data cond.column h1 h2]

/-- Witness for C9: the advertised column id "name" resolves to none on the
sample event data, and an equality condition on it evaluates to false even
though the dataset's name equals the compared value. -/
theorem fieldMapper_only_action_and_Name_witness :
    ("name" ≠ "action") ∧ ("name" ≠ "Name") ∧
    fieldMapper { dataset := sampleDataset, action := "updated" } "name" = none ∧
    evalCondition fieldMapper { dataset := sampleDataset, action := "updated" }
      { column := "name", op := .eq, value := "eval-set" } = false := by
  refine ⟨by decide, by decide, ?_, ?_⟩
  · exact fieldMapper_only_action_and_Name.1 _ "name" (by decide) (by decide)
  · exact fieldMapper_only_action_and_Name.2.2 _ _ (by decide) (by decide)

/-- C10: calling the publisher with a null dataset returns normally with the
state untouched, for every environment — so no dataset versions are read, no
change event is enqueued, nothing is logged and nothing is thrown, for every
action kind. -/
theorem null_dataset_publish_noop (env : Env) (action : String) (s : PState) :
    datasetChangeEventSourcing env none action s = .ok () s := rfl

/-- C2: a matched trigger whose action id list does not have exactly one
element is treated as a configuration error for that trigger only: the
iteration logs the match, the configuration error and the caught error,
leaves the effect trace untouched (no execution record is created and no
webhook job is enqueued for that trigger), and the loop continues with the
remaining triggers of the same event. -/
theorem misconfigured_trigger_isolated (env : Env) (event : DatasetChangeEvent)
    (t : Trigger) (s : PState)
    (hmatch : evaluateFilter { dataset := event.dataset, action := event.action : EventData }
      t.filter fieldMapper = true)
    (hlen : t.actionIds.length ≠ 1) :
    processOneTrigger env event t s =
      { s with logs := s.logs ++ [⟨.debug, matchesMsg t⟩, ⟨.debug, badActionCountMsg t⟩,
        ⟨.error, triggerErrorMsg t event (badActionCountMsg t)⟩] } ∧
    (∀ rest, processTriggers env event (t :: rest) s =
      processTriggers env event rest
        { s with logs := s.logs ++ [⟨.debug, matchesMsg t⟩, ⟨.debug, badActionCountMsg t⟩,
          ⟨.error, triggerErrorMsg t event (badActionCountMsg t)⟩] }) := by
  have hL : (t.actionIds.length != 1) = true := by simpa [bne_iff_ne] using hlen
  have hone : processOneTrigger env event t s =
      { s with logs := s.logs ++ [⟨.debug, matchesMsg t⟩, ⟨.debug, badActionCountMsg t⟩,
        ⟨.error, triggerErrorMsg t event (badActionCountMsg t)⟩] } := by
    unfold processOneTrigger tryProcessTrigger
    simp only [hmatch, if_true, hL, logDebug, logError]
    simp [List.append_assoc]
  refine ⟨hone, fun rest => ?_⟩
  show processTriggers env event rest (processOneTrigger env event t s) = _
  rw [hone]

/-- Witness for C2: the misconfigured sample trigger (no action ids) matches
every event and its iteration only logs, leaving the trace unchanged. -/
theorem misconfigured_trigger_isolated_witness :
    evaluateFilter { dataset := sampleEvent.dataset, action := sampleEvent.action : EventData }
      badTrigger.filter fieldMapper = true ∧
    badTrigger.actionIds.length ≠ 1 ∧
    processOneTrigger happyEnv sampleEvent badTrigger sampleState =
      { sampleState with logs := sampleState.logs ++ [⟨.debug, matchesMsg badTrigger⟩,
        ⟨.debug, badActionCountMsg badTrigger⟩,
        ⟨.error, triggerErrorMsg badTrigger sampleEvent (badActionCountMsg badTrigger)⟩] } := by
  refine ⟨rfl, by decide, ?_⟩
  exact (misconfigured_trigger_isolated happyEnv sampleEvent badTrigger sampleState rfl
    (by decide)).1

/-- C4 (amended): every webhook delivery job enqueued during a processor run
is shaped timestamp, id, payload and name at the top level, its payload holds
the project id, the automation id, the execution id and the inner payload,
and the inner payload consists of exactly the action kind, the entity-type
discriminator "dataset" and the dataset snapshot — it holds no apiVersion
key. -/
theorem webhook_job_shape (env : Env) (event : DatasetChangeEvent)
    (c0 cl0 : Nat) (lg0 : List LogEntry) (j : WebhookJob)
    (hj : j ∈ enqueuedJobs
      (datasetVersionProcessor env event ⟨c0, cl0, [], lg0⟩).state.trace) :
    j.name = webhookJobName ∧
    (webhookJobJson j).keys = ["timestamp", "id", "payload", "name"] ∧
    (webhookPayloadJson j).keys = ["projectId", "automationId", "executionId", "payload"] ∧
    (webhookInnerJson j).keys = ["action", "type", "dataset"] ∧
    (webhookInnerJson j).lookupKey "apiVersion" = none ∧
    j.payload.payload.type = "dataset" ∧
    j.payload.payload.action = event.action ∧
    j.payload.projectId = event.projectId ∧
    j.payload.payload.dataset = event.dataset := by
  have h := (runInv_datasetVersionProcessor env event c0 cl0 lg0).2.2.2.2 j hj
  obtain ⟨h1, h2, h3, h4, h5⟩ := h
  exact ⟨h1, rfl, rfl, rfl, rfl, h2, h3, h4, h5⟩

/-- Witness for C4 (amended): the job enqueued by the sample run is in the
trace and its inner payload has no apiVersion key. -/
theorem webhook_job_shape_witness :
    ((mkWebhookJob sampleEvent.dataset sampleEvent.action "auto1" sampleEvent.projectId 0 0 1)
      ∈ enqueuedJobs
        (datasetVersionProcessor happyEnv sampleEvent ⟨0, 0, [], []⟩).state.trace) ∧
    (webhookInnerJson (mkWebhookJob sampleEvent.dataset sampleEvent.action "auto1"
      sampleEvent.projectId 0 0 1)).lookupKey "apiVersion" = none := by
  have hmem : (mkWebhookJob sampleEvent.dataset sampleEvent.action "auto1"
      sampleEvent.projectId 0 0 1) ∈ enqueuedJobs
      (datasetVersionProcessor happyEnv sampleEvent ⟨0, 0, [], []⟩).state.trace := by
    show (mkWebhookJob sampleEvent.dataset sampleEvent.action "auto1"
      sampleEvent.projectId 0 0 1) ∈ [mkWebhookJob sampleEvent.dataset sampleEvent.action
      "auto1" sampleEvent.projectId 0 0 1]
    exact List.mem_singleton.mpr rfl
  exact ⟨hmem, (webhook_job_shape happyEnv sampleEvent 0 0 [] _ hmem).2.2.2.2.1⟩

/-- Counterexample to C4 as stated: at a concrete input the processor
enqueues exactly one webhook job, and that job's inner payload object has
exactly the keys action, type and dataset — it contains no apiVersion object
keyed by the trigger's event source. -/
theorem webhook_job_no_apiVersion_counterexample :
    (enqueuedJobs (datasetVersionProcessor happyEnv sampleEvent
      ⟨0, 0, [], []⟩).state.trace).length = 1 ∧
    ((enqueuedJobs (datasetVersionProcessor happyEnv sampleEvent
      ⟨0, 0, [], []⟩).state.trace).map (fun j => (webhookInnerJson j).keys))
      = [["action", "type", "dataset"]] ∧
    ((enqueuedJobs (datasetVersionProcessor happyEnv sampleEvent
      ⟨0, 0, [], []⟩).state.trace).map
        (fun j => ((webhookInnerJson j).lookupKey "apiVersion").isNone)) = [true] :=
  ⟨rfl, rfl, rfl⟩


/-- C5 (amended): for every submitted header row that is in use (its trimmed
name is non-empty) whose secret flag differs from its saved secret flag and
whose value is empty after trimming, the error list collected by
validateFormData contains the value-must-be-provided message of that header
exactly once, and validateFormData returns that error list marking the
submission invalid. -/
theorem secret_transition_single_violation (fd : WebhookFormData) (i : Nat)
    (hi : i < fd.headers.length)
    (hname : (fd.headers.get ⟨i, hi⟩).name.jsTrim ≠ "")
    (htr : (fd.headers.get ⟨i, hi⟩).wasSecret ≠ (fd.headers.get ⟨i, hi⟩).isSecret)
    (hval : (fd.headers.get ⟨i, hi⟩).value.jsTrim = "") :
    (validationErrors fd).count (transitionMsg i (fd.headers.get ⟨i, hi⟩).wasSecret) = 1 ∧
    (validateFormData fd).isValid = false ∧
    (validateFormData fd).errors = some (validationErrors fd) := by
  have hmain := count_transitionMsg_violationsFrom fd.headers 0 i hi hname htr hval
  rw [Nat.zero_add] at hmain
  have hcount : (validationErrors fd).count
      (transitionMsg i (fd.headers.get ⟨i, hi⟩).wasSecret) = 1 := by
    unfold validationErrors
    rw [List.count_append, List.count_append, hmain]
    have hurl : (if fd.url = "" then [urlRequiredMsg] else []).count
        (transitionMsg i (fd.headers.get ⟨i, hi⟩).wasSecret) = 0 := by
      split
      · simp [List.count_cons, urlRequiredMsg_ne_transitionMsg]
      · rfl
    have hdup : (if (headerNamesOf fd.headers).dedup.length
        < (headerNamesOf fd.headers).length then [duplicateMsg] else []).count
        (transitionMsg i (fd.headers.get ⟨i, hi⟩).wasSecret) = 0 := by
      split
      · simp [List.count_cons, duplicateMsg_ne_transitionMsg]
      · rfl
    omega
  have hlen : 1 ≤ (validationErrors fd).length := by
    have := List.count_le_length
      (transitionMsg i (fd.headers.get ⟨i, hi⟩).wasSecret) (validationErrors fd)
    omega
  refine ⟨hcount, ?_, ?_⟩
  · show ((validationErrors fd).length == 0) = false
    rw [beq_eq_false_iff_ne]
    omega
  · show (if (validationErrors fd).length > 0
      then some (validationErrors fd) else none) = some (validationErrors fd)
    rw [if_pos (by omega)]

/-- Witness for C5 (amended): the in-use transition row produces exactly one
value-must-be-provided violation. -/
theorem secret_transition_single_violation_witness :
    transitionForm.headers.get ⟨0, by decide⟩ = transitionHeader ∧
    transitionHeader.name.jsTrim ≠ "" ∧
    transitionHeader.wasSecret ≠ transitionHeader.isSecret ∧
    transitionHeader.value.jsTrim = "" ∧
    (validationErrors transitionForm).count (transitionMsg 0 transitionHeader.wasSecret)
      = 1 := by
  refine ⟨rfl, by decide, by decide, rfl, ?_⟩
  exact (secret_transition_single_violation transitionForm 0 (by decide) (by decide)
    (by decide) rfl).1

/-- Counterexample to C5 as stated: a fully blank header row satisfies the
claim's hypotheses (its wasSecret flag differs from its isSecret flag and its
value trims to empty) yet validateFormData reports no violation at all for
it, because a fully empty row is skipped as a placeholder. -/
theorem secret_transition_blank_row_counterexample :
    blankTransitionHeader.wasSecret ≠ blankTransitionHeader.isSecret ∧
    blankTransitionHeader.value.jsTrim = "" ∧
    blankTransitionForm.headers = [blankTransitionHeader] ∧
    validationErrors blankTransitionForm = [] ∧
    (validationErrors blankTransitionForm).count (transitionMsg 0 true) = 0 ∧
    (validateFormData blankTransitionForm).isValid = true := by
  exact ⟨by decide, rfl, rfl, by decide, by decide, by decide⟩

/-- C6: whenever the submitted header set has two in-use rows at distinct
positions whose names coincide after trimming and lower-casing, the error
list collected by validateFormData contains the duplicate-names message
exactly once, however many duplicated names or pairs exist, and
validateFormData returns that error list marking the submission invalid. -/
theorem duplicate_names_single_violation (fd : WebhookFormData) (i j : Nat)
    (hi : i < fd.headers.length) (hj : j < fd.headers.length) (hij : i < j)
    (hni : (fd.headers.get ⟨i, hi⟩).name.jsTrim ≠ "")
    (hnj : (fd.headers.get ⟨j, hj⟩).name.jsTrim ≠ "")
    (heq : (fd.headers.get ⟨i, hi⟩).name.jsTrim.jsLower
      = (fd.headers.get ⟨j, hj⟩).name.jsTrim.jsLower) :
    (validationErrors fd).count duplicateMsg = 1 ∧
    (validateFormData fd).isValid = false ∧
    (validateFormData fd).errors = some (validationErrors fd) := by
  have h2 := two_le_count_headerNames fd.headers i j hi hj hij hni hnj heq
  have hnodup : ¬ (headerNamesOf fd.headers).Nodup := by
    intro hn
    have := List.nodup_iff_count_le_one.mp hn
      ((fd.headers.get ⟨i, hi⟩).name.jsTrim.jsLower)
    omega
  have hlt := dedup_length_lt_of_not_nodup hnodup
  have hcount : (validationErrors fd).count duplicateMsg = 1 := by
    unfold validationErrors
    rw [List.count_append, List.count_append, count_duplicateMsg_violationsFrom]
    have hurl : (if fd.url = "" then [urlRequiredMsg] else []).count duplicateMsg = 0 := by
      split
      · simp [List.count_cons, urlRequiredMsg_ne_duplicateMsg]
      · rfl
    rw [if_pos hlt, hurl]
    simp [List.count_cons]
  have hlen : 1 ≤ (validationErrors fd).length := by
    have := List.count_le_length duplicateMsg (validationErrors fd)
    omega
  refine ⟨hcount, ?_, ?_⟩
  · show ((validationErrors fd).length == 0) = false
    rw [beq_eq_false_iff_ne]
    omega
  · show (if (validationErrors fd).length > 0
      then some (validationErrors fd) else none) = some (validationErrors fd)
    rw [if_pos (by omega)]

/-- Witness for C6: the form with the case-duplicated names X-Foo and x-foo
gets exactly one duplicate-names violation. -/
theorem duplicate_names_single_violation_witness :
    (dupHeadersForm.headers.get ⟨0, by decide⟩).name.jsTrim ≠ "" ∧
    (dupHeadersForm.headers.get ⟨1, by decide⟩).name.jsTrim ≠ "" ∧
    (dupHeadersForm.headers.get ⟨0, by decide⟩).name.jsTrim.jsLower
      = (dupHeadersForm.headers.get ⟨1, by decide⟩).name.jsTrim.jsLower ∧
    (validationErrors dupHeadersForm).count duplicateMsg = 1 := by
  refine ⟨by decide, by decide, by decide, ?_⟩
  exact (duplicate_names_single_violation dupHeadersForm 0 1 (by decide) (by decide)
    (by decide) (by decide) (by decide) (by decide)).1

/-- C8 (amended): a failure of the batch trigger lookup is logged by the
processor's outer catch block and re-raised, and every failing processor run
ends with that error log entry; a failure while enqueueing the change event
is logged by the publisher's catch block, so every failing publisher run
whose version listing succeeded ends with that error log entry; per-trigger
failures are caught at their own loop iteration, logged, and not propagated;
but a failure of the publisher's dataset version listing, which runs before
its try block, re-raises without writing any log entry. -/
theorem failure_logging_policy :
    (∀ (env : Env) (event : DatasetChangeEvent) (s : PState) (e : String),
      env.triggersResult = .error e →
      datasetVersionProcessor env event s = .err e
        (logError (processorFailedMsg event e) (logInfo (processingMsg event) s))) ∧
    (∀ (env : Env) (event : DatasetChangeEvent) (s : PState) (e : String) (s' : PState),
      datasetVersionProcessor env event s = .err e s' →
      s'.logs.getLast? = some ⟨.error, processorFailedMsg event e⟩) ∧
    (∀ (env : Env) (d : DatasetDomain) (action : String) (s : PState) (vs : List Nat)
      (e : String) (s' : PState),
      env.listVersionsResult = .ok vs →
      datasetChangeEventSourcing env (some d) action s = .err e s' →
      s'.logs.getLast? = some ⟨.error, publishFailedMsg d e⟩) ∧
    (∀ (env : Env) (event : DatasetChangeEvent) (t : Trigger) (s1 : PState) (e : String)
      (s2 : PState), tryProcessTrigger env event t s1 = .err e s2 →
      processOneTrigger env event t s1 = logError (triggerErrorMsg t event e) s2) ∧
    (∀ (env : Env) (d : DatasetDomain) (action : String) (s : PState) (e : String),
      env.listVersionsResult = .error e →
      datasetChangeEventSourcing env (some d) action s = .err e s) := by
  refine ⟨?_, ?_, ?_, ?_, ?_⟩
  · intro env event s e h
    unfold datasetVersionProcessor
    simp only [h]
  · intro env event s e s' h
    unfold datasetVersionProcessor at h
    rcases hT : env.triggersResult with e2 | ts
    · rw [hT] at h
      injection h with h1 h2
      rw [← h2, ← h1]
      show ((logInfo (processingMsg event) s).logs
        ++ [({ level := .error, message := processorFailedMsg event e2 } : LogEntry)]).getLast?
        = some { level := .error, message := processorFailedMsg event e2 }
      simp
    · rw [hT] at h
      exact absurd h (by simp)
  · intro env d action s vs e s' hv h
    unfold datasetChangeEventSourcing at h
    rw [hv] at h
    cases hQ : env.entityQueueAvailable with
    | false =>
      rw [hQ] at h
      simp only [Bool.false_eq_true, if_false] at h
      exact absurd h (by simp)
    | true =>
      rw [hQ] at h
      simp only [if_true, nowClock, freshUuid] at h
      rcases hAdd : env.entityAddResult (mkEntityChangeJob d action vs.head? s.clock
          s.uuidCounter) with e2 | u
      · rw [hAdd] at h
        injection h with h1 h2
        rw [← h2, ← h1]
        show (s.logs
          ++ [({ level := .error, message := publishFailedMsg d e2 } : LogEntry)]).getLast?
          = some { level := .error, message := publishFailedMsg d e2 }
        simp
      · rw [hAdd] at h
        exact absurd h (by simp)
  · intro env event t s1 e s2 htry
    unfold processOneTrigger
    rw [htry]
  · intro env d action s e h
    unfold datasetChangeEventSourcing
    simp only [h]

/-- Witness for C8 (amended): a batch lookup failure is logged and re-raised;
a publish failure is logged and re-raised; a per-trigger failure is caught
and logged; a version-listing failure re-raises with the state untouched. -/
theorem failure_logging_policy_witness :
    batchFailEnv.triggersResult = .error "db down" ∧
    datasetVersionProcessor batchFailEnv sampleEvent sampleState = .err "db down"
      (logError (processorFailedMsg sampleEvent "db down")
        (logInfo (processingMsg sampleEvent) sampleState)) ∧
    (logError (processorFailedMsg sampleEvent "db down")
      (logInfo (processingMsg sampleEvent) sampleState)).logs.getLast?
      = some ⟨.error, processorFailedMsg sampleEvent "db down"⟩ ∧
    entityAddFailEnv.listVersionsResult = .ok [42] ∧
    datasetChangeEventSourcing entityAddFailEnv (some sampleDataset) "updated" sampleState
      = .err "queue down" (logError (publishFailedMsg sampleDataset "queue down")
        { sampleState with clock := 1, uuidCounter := 1 }) ∧
    (logError (publishFailedMsg sampleDataset "queue down")
      { sampleState with clock := 1, uuidCounter := 1 }).logs.getLast?
      = some ⟨.error, publishFailedMsg sampleDataset "queue down"⟩ ∧
    processOneTrigger automationFailEnv sampleEvent sampleTrigger sampleState
      = logError (triggerErrorMsg sampleTrigger sampleEvent "db down")
        (logDebug (matchesMsg sampleTrigger) sampleState) ∧
    versionsFailEnv.listVersionsResult = .error "db down" ∧
    datasetChangeEventSourcing versionsFailEnv (some sampleDataset) "updated" sampleState
      = .err "db down" sampleState := by
  refine ⟨rfl, ?_, ?_, rfl, rfl, ?_, ?_, rfl, ?_⟩
  · exact failure_logging_policy.1 batchFailEnv sampleEvent sampleState "db down" rfl
  · exact failure_logging_policy.2.1 batchFailEnv sampleEvent sampleState "db down" _
      (failure_logging_policy.1 batchFailEnv sampleEvent sampleState "db down" rfl)
  · exact failure_logging_policy.2.2.1 entityAddFailEnv sampleDataset "updated" sampleState
      [42] "queue down" _ rfl rfl
  · exact failure_logging_policy.2.2.2.1 automationFailEnv sampleEvent sampleTrigger
      sampleState "db down" (logDebug (matchesMsg sampleTrigger) sampleState) rfl
  · exact failure_logging_policy.2.2.2.2 versionsFailEnv sampleDataset "updated"
      sampleState "db down" rfl

/-- Counterexample to C8 as stated: the publisher's dataset version listing
happens before its try block, so its failure re-raises while the run leaves
the log list untouched — a failure path that returns without producing a log
entry. -/
theorem publisher_version_failure_unlogged_counterexample :
    datasetChangeEventSourcing versionsFailEnv (some sampleDataset) "updated" sampleState
      = .err "db down" sampleState ∧
    sampleState.logs = [] :=
  ⟨rfl, rfl⟩
